import Mathlib

/-!
Verification of the n8n Claude Code Agent node core: workspace lifecycle,
path and command policy, execution supervision and result translation.
The definitions below are a shallow embedding of the TypeScript source
(`claudeCodeAgentExecute` and its `common` helpers).  JavaScript strings
are modelled as Lean `String`, machine state as explicit records, and the
async timeout race as an explicit cut point in the message stream.
-/

/-! ## JavaScript character classes and string helpers -/

/-- JavaScript regex class `\s` (whitespace, including Unicode spaces). -/
def isJsSpace (c : Char) : Bool :=
  c == ' ' || c == '\t' || c == '\n' || c == '\r' ||
  c.val == 0x0b || c.val == 0x0c || c.val == 0xa0 || c.val == 0x1680 ||
  (0x2000 ≤ c.val && c.val ≤ 0x200a) || c.val == 0x2028 || c.val == 0x2029 ||
  c.val == 0x202f || c.val == 0x205f || c.val == 0x3000 || c.val == 0xfeff

/-- JavaScript regex `.` without the `s` flag: any char except line terminators. -/
def isJsDot (c : Char) : Bool :=
  !(c == '\n' || c == '\r' || c.val == 0x2028 || c.val == 0x2029)

/-- ASCII lower-casing, as performed by a case-insensitive (`i`) regex match. -/
def asciiLower (c : Char) : Char :=
  if 65 ≤ c.toNat && c.toNat ≤ 90 then Char.ofNat (c.toNat + 32) else c

/-- `charsPre p s` is true when the char list `p` is an initial run of `s`. -/
def charsPre : List Char → List Char → Bool
  | [], _ => true
  | _ :: _, [] => false
  | a :: as, b :: bs => a == b && charsPre as bs

/-- `String.startsWith` of JavaScript, on the explicit character lists. -/
def strStarts (s pre : String) : Bool := charsPre pre.toList s.toList

/-- Split a character list on a separator character (JS `String.split`). -/
def splitCharsOn (sep : Char) : List Char → List (List Char)
  | [] => [[]]
  | c :: cs =>
    let rest := splitCharsOn sep cs
    if c == sep then [] :: rest
    else
      match rest with
      | r :: rs => (c :: r) :: rs
      | [] => [[c]]

/-- JS `String.trim`: drop leading and trailing `\s` characters. -/
def jsTrimChars (cs : List Char) : List Char :=
  ((cs.dropWhile isJsSpace).reverse.dropWhile isJsSpace).reverse

/-- Join a list of strings with a separator (JS `Array.join`). -/
def joinWith (sep : String) : List String → String
  | [] => ""
  | [s] => s
  | s :: rest => s ++ sep ++ joinWith sep rest

/-! ## Node `path` module (posix), segment model

`node:path`'s `resolve`, `relative` and `join` are modelled on lists of
non-empty path segments; the working directory of the process is an
explicit parameter (a resolved absolute segment list). -/

/-- Segments of a path string: split on `/` and drop empty segments. -/
def splitSegs (p : String) : List String :=
  ((splitCharsOn '/' p.toList).map (fun l => String.mk l)).filter (fun s => s != "")

/-- One step of path normalization: `.` is dropped and `..` pops the previous
segment (at the root of an absolute path, `..` is dropped; in a relative
path a leading `..` is kept).  The accumulator is in reverse order. -/
def normStep (isAbs : Bool) (acc : List String) (s : String) : List String :=
  if s == "." then acc
  else if s == ".." then
    match acc with
    | [] => if isAbs then [] else [".."]
    | a :: rest => if a == ".." then s :: acc else rest
  else s :: acc

/-- Normalize a segment list, resolving `.` and `..` (Node `normalizeString`). -/
def normalizeSegs (isAbs : Bool) (segs : List String) : List String :=
  (segs.foldl (normStep isAbs) []).reverse

/-- Node `path.resolve(p)` with one argument, as a normalized absolute
segment list; relative paths are resolved against `cwd`. -/
def resolveSegs (cwd : List String) (p : String) : List String :=
  if strStarts p "/" then normalizeSegs true (splitSegs p)
  else normalizeSegs true (cwd ++ splitSegs p)

/-- Node `path.relative` on already-resolved segment lists: drop the common
leading segments, then one `..` per remaining source segment followed by
the remaining target segments. -/
def relativeSegs : List String → List String → List String
  | [], ts => ts
  | fs, [] => fs.map (fun _ => "..")
  | f :: fs, t :: ts =>
    if f == t then relativeSegs fs ts
    else ((f :: fs).map (fun _ => "..")) ++ (t :: ts)

/-- Node `path.join(parts...)`: concatenate and normalize. -/
def joinPath (parts : List String) : String :=
  let raw := joinWith "/" (parts.filter (fun s => s != ""))
  let isAbs := strStarts raw "/"
  let body := joinWith "/" (normalizeSegs isAbs (splitSegs raw))
  if isAbs then "/" ++ body
  else if body == "" then "." else body

/-- Node `path.resolve(a, b)` with two arguments: if `b` is absolute it wins,
otherwise it is resolved against `a` (against `cwd` when `a` is relative). -/
def resolveTwo (cwd : List String) (a b : String) : String :=
  let segs :=
    if strStarts b "/" then normalizeSegs true (splitSegs b)
    else if strStarts a "/" then normalizeSegs true (splitSegs a ++ splitSegs b)
    else normalizeSegs true (cwd ++ splitSegs a ++ splitSegs b)
  "/" ++ joinWith "/" segs

/-! ## Workspace path validation (`validatePath` in the source) -/

/-- Embedding of `validatePath(filePath, workspacePath)`: resolve both paths,
take the relative path from the workspace to the candidate, and accept only
when that relative path does not start with `..` and the raw candidate is
not absolute.  `cwd` is the process working directory used by `resolve`. -/
def validatePath (cwd : List String) (filePath workspacePath : String) : Bool :=
  let resolvedPath := resolveSegs cwd filePath
  let resolvedWorkspace := resolveSegs cwd workspacePath
  let relativePath := joinWith "/" (relativeSegs resolvedWorkspace resolvedPath)
  !(strStarts relativePath "..") && !(strStarts filePath "/")

/-- `segsLe w p`: the segment list `w` is an initial run of `p`
(the location `p` is at or below the directory `w`). -/
def segsLe : List String → List String → Bool
  | [], _ => true
  | _ :: _, [] => false
  | a :: as, b :: bs => a == b && segsLe as bs

/-- Modelled from the claim's words, for comparison with `validatePath`:
true iff the candidate canonicalizes to a location at or below the
workspace and the raw candidate is not itself an absolute path outside
the workspace. -/
def specIsPathContained (cwd : List String) (candidate workspace : String) : Bool :=
  let rp := resolveSegs cwd candidate
  let rw := resolveSegs cwd workspace
  segsLe rw rp && !(strStarts candidate "/" && !(segsLe rw rp))

/-- C1 (counterexample): the absolute candidate `/ws/a` canonicalizes to a
location below the workspace `/ws` and is not an absolute path outside it,
so the claimed characterization says the check accepts; `validatePath`
nevertheless returns false, because every absolute candidate is rejected. -/
theorem validatePath_containment_iff_fails :
    strStarts "/ws/a" "/" = true ∧
    specIsPathContained [] "/ws/a" "/ws" = true ∧
    validatePath [] "/ws/a" "/ws" = false := by
  decide

/-- C1 (amended): for every absolute candidate path and every workspace path,
`validatePath` returns false — absolute candidates are never permitted,
even when they canonicalize to a location at or below the workspace. -/
theorem validatePath_rejects_all_absolute (cwd : List String)
    (filePath workspacePath : String)
    (h : strStarts filePath "/" = true) :
    validatePath cwd filePath workspacePath = false := by
  simp [validatePath, h]

/-- Witness for `validatePath_rejects_all_absolute` at a concrete input. -/
theorem validatePath_rejects_all_absolute_witness :
    strStarts "/ws/a" "/" = true ∧ validatePath ["home"] "/ws/a" "/ws" = false :=
  ⟨by decide, validatePath_rejects_all_absolute ["home"] "/ws/a" "/ws" (by decide)⟩

/-! ## Denylist regular expressions

The source tests each command against nine JS regexes.  They use only
literal characters, `\s+`, `\s*`, `.*` and one top-level alternation, so
they are embedded as token lists with a small fuel-driven matcher whose
fuel bound strictly dominates every recursion path. -/

/-- One token of a denylist regex. -/
inductive Tok
  | lit (c : Char)
  | wsPlus
  | wsStar
  | dotStar
deriving DecidableEq

/-- Match a token list against a character list starting at the head;
trailing characters are allowed (JS `RegExp.test` semantics).  `fuel`
only guards recursion and is never exhausted when the wrapper below
supplies `ts.length + cs.length + 1`. -/
def matchToksF : Nat → List Tok → List Char → Bool
  | 0, _, _ => false
  | _ + 1, [], _ => true
  | f + 1, Tok.lit c :: ts, cs =>
    match cs with
    | [] => false
    | x :: xs => x == c && matchToksF f ts xs
  | f + 1, Tok.wsPlus :: ts, cs =>
    match cs with
    | [] => false
    | x :: xs => isJsSpace x && (matchToksF f ts xs || matchToksF f (Tok.wsPlus :: ts) xs)
  | f + 1, Tok.wsStar :: ts, cs =>
    matchToksF f ts cs ||
      (match cs with
       | [] => false
       | x :: xs => isJsSpace x && matchToksF f (Tok.wsStar :: ts) xs)
  | f + 1, Tok.dotStar :: ts, cs =>
    matchToksF f ts cs ||
      (match cs with
       | [] => false
       | x :: xs => isJsDot x && matchToksF f (Tok.dotStar :: ts) xs)

/-- Anchored match with sufficient fuel. -/
def matchToks (ts : List Tok) (cs : List Char) : Bool :=
  matchToksF (ts.length + cs.length + 1) ts cs

/-- Unanchored search: try the match at every start position. -/
def searchToks (ts : List Tok) : List Char → Bool
  | [] => matchToks ts []
  | x :: xs => matchToks ts (x :: xs) || searchToks ts xs

/-- Literal tokens of a string. -/
def lits (s : String) : List Tok := s.toList.map Tok.lit

/-- Case-insensitive unanchored test of a pattern on a command string,
like `/pattern/gi.test(command)` (the regex objects are freshly created
on each call in the source, so `lastIndex` state is irrelevant). -/
def regexTestCI (pat : List Tok) (s : String) : Bool :=
  searchToks pat (s.toList.map asciiLower)

/-- `/rm\s+-rf\s+\//gi` -/
def patRmRf : List Tok := lits "rm" ++ [Tok.wsPlus] ++ lits "-rf" ++ [Tok.wsPlus] ++ lits "/"

/-- `/sudo/gi` -/
def patSudo : List Tok := lits "sudo"

/-- `/chmod\s+777/gi` -/
def patChmod777 : List Tok := lits "chmod" ++ [Tok.wsPlus] ++ lits "777"

/-- `/curl.*\|.*sh/gi` -/
def patCurlPipeSh : List Tok := lits "curl" ++ [Tok.dotStar] ++ lits "|" ++ [Tok.dotStar] ++ lits "sh"

/-- `/wget.*\|.*sh/gi` -/
def patWgetPipeSh : List Tok := lits "wget" ++ [Tok.dotStar] ++ lits "|" ++ [Tok.dotStar] ++ lits "sh"

/-- `/>\s*\/dev\/sda/gi` -/
def patDevSda : List Tok := lits ">" ++ [Tok.wsStar] ++ lits "/dev/sda"

/-- `/mkfs/gi` -/
def patMkfs : List Tok := lits "mkfs"

/-- `/dd\s+if=/gi` -/
def patDdIf : List Tok := lits "dd" ++ [Tok.wsPlus] ++ lits "if="

/-- Left alternative of the fork-bomb regex `/:(){ :|:& };:/gi`: as a JS
regex, `()` is an empty group, the braces are literal, and `|` is a
top-level alternation, so the left branch matches the literal text `:\x7b :`. -/
def patForkBombLeft : List Tok := lits ":\x7b :"

/-- Right alternative of the fork-bomb regex: the literal text `:& \x7d;:`
(this is the branch that actually fires on the canonical fork bomb). -/
def patForkBombRight : List Tok := lits ":& \x7d;:"

/-- `dangerousPatterns.some(p => p.test(command))`: the nine denylist
regexes of `filterCommand`, with the fork-bomb alternation expanded. -/
def dangerousMatch (command : String) : Bool :=
  regexTestCI patRmRf command || regexTestCI patSudo command ||
  regexTestCI patChmod777 command || regexTestCI patCurlPipeSh command ||
  regexTestCI patWgetPipeSh command || regexTestCI patDevSda command ||
  regexTestCI patMkfs command || regexTestCI patDdIf command ||
  regexTestCI patForkBombLeft command || regexTestCI patForkBombRight command

/-! ## Sandbox policy (`SandboxConfig`, `isCommandAllowed`, `filterCommand`) -/

/-- Security configuration for the Claude Agent sandbox (`SandboxConfig`). -/
structure SandboxConfig where
  workspacePath : String
  enableFileAccess : Bool
  enableCodeExecution : Bool
  enableBashCommands : Bool
  allowedCommands : List String
  timeout : Nat
deriving DecidableEq

/-- `command.trim().split(/\s+/)[0]`: the base token of a command. -/
def baseCommand (command : String) : String :=
  String.mk ((jsTrimChars command.toList).takeWhile (fun c => !isJsSpace c))

/-- `isCommandAllowed(command, allowedCommands)`: exact, case-sensitive
membership of the base token in the allowlist. -/
def isCommandAllowed (command : String) (allowedCommands : List String) : Bool :=
  allowedCommands.contains (baseCommand command)

/-- `filterCommand(command, config)`: reject when bash commands are disabled,
then reject any denylist match, then reject commands whose base token is
not allowlisted; otherwise return the command unchanged. -/
def filterCommand (command : String) (config : SandboxConfig) : Option String :=
  if !config.enableBashCommands then none
  else if dangerousMatch command then none
  else if !isCommandAllowed command config.allowedCommands then none
  else some command

/-- C2: a command matching any denylisted pattern is rejected by
`filterCommand` for every policy, regardless of allowlist membership. -/
theorem filterCommand_denies_dangerous (command : String) (config : SandboxConfig)
    (h : dangerousMatch command = true) :
    filterCommand command config = none := by
  cases hb : config.enableBashCommands <;> simp [filterCommand, hb, h]

/-- Witness for `filterCommand_denies_dangerous`: `sudo ls` is denylisted and
rejected even though its base token `sudo` is on the allowlist. -/
theorem filterCommand_denies_dangerous_witness :
    dangerousMatch "sudo ls" = true ∧
    filterCommand "sudo ls" ⟨"/ws", true, true, true, ["sudo"], 300000⟩ = none :=
  ⟨by decide, filterCommand_denies_dangerous "sudo ls" _ (by decide)⟩

/-- C6: when shell-command execution is disabled by policy, `filterCommand`
returns `none` for every command and every allowlist. -/
theorem filterCommand_disabled_rejects (command : String) (config : SandboxConfig)
    (h : config.enableBashCommands = false) :
    filterCommand command config = none := by
  simp [filterCommand, h]

/-- Witness for `filterCommand_disabled_rejects`: an allowlisted, harmless
command is still rejected when bash commands are disabled. -/
theorem filterCommand_disabled_rejects_witness :
    (⟨"/ws", true, true, false, ["node"], 300000⟩ : SandboxConfig).enableBashCommands = false ∧
    filterCommand "node index.js" ⟨"/ws", true, true, false, ["node"], 300000⟩ = none :=
  ⟨rfl, filterCommand_disabled_rejects "node index.js" _ rfl⟩

/-! ## Tool invocation payloads and command extraction -/

/-- A JavaScript value as it can appear in a tool input payload. -/
inductive JSValue
  | str (s : String)
  | num (n : Int)
  | bool (b : Bool)
  | null
  | undef
deriving DecidableEq

/-- JS truthiness of a payload value. -/
def JSValue.truthy : JSValue → Bool
  | .str s => s != ""
  | .num n => n != 0
  | .bool b => b
  | .null => false
  | .undef => false

/-- The `command` and `cmd` fields of `msg.input` (`undef` when absent). -/
structure ToolInput where
  command : JSValue
  cmd : JSValue
deriving DecidableEq

/-- `msg.input?.command || msg.input?.cmd`: optional chaining on a possibly
undefined input, then the JS or-chain that takes `command` when truthy,
else `cmd`. -/
def extractCommand : Option ToolInput → JSValue
  | none => JSValue.undef
  | some i => if i.command.truthy then i.command else i.cmd

/-- The command filtering step applied to a `tool_use` message: filtering
runs only for the `bash` / `execute_command` tools whose extracted command
is a truthy (non-empty) string; `some s` reports the blocked command that
aborts the run, `none` means the invocation proceeds. -/
def blockedCommand (tool : String) (input : Option ToolInput)
    (config : SandboxConfig) : Option String :=
  if tool == "bash" || tool == "execute_command" then
    match extractCommand input with
    | JSValue.str s =>
      if s == "" then none
      else
        match filterCommand s config with
        | none => some s
        | some _ => none
    | _ => none
  else none

/-- C7: a tool invocation is blocked only when its tool name is exactly
`bash` or `execute_command` and its payload carries a non-empty command
string (under `command`, or `cmd` when `command` is falsy) that
`filterCommand` rejects; and the decision never depends on the
`enableFileAccess` / `enableCodeExecution` policy booleans, so every
other invocation proceeds without any policy check. -/
theorem blockedCommand_scope (tool : String) (input : Option ToolInput)
    (config : SandboxConfig) :
    (∀ s, blockedCommand tool input config = some s →
      (tool = "bash" ∨ tool = "execute_command") ∧
      extractCommand input = JSValue.str s ∧ s ≠ "" ∧
      filterCommand s config = none) ∧
    (∀ b1 b2, blockedCommand tool input
        { config with enableFileAccess := b1, enableCodeExecution := b2 }
      = blockedCommand tool input config) := by
  constructor
  · intro s h
    unfold blockedCommand at h
    by_cases ht : (tool == "bash" || tool == "execute_command") = true
    · rw [if_pos ht] at h
      have htool : tool = "bash" ∨ tool = "execute_command" := by
        rcases Bool.or_eq_true_iff.mp ht with h1 | h1
        · exact Or.inl (by simpa using h1)
        · exact Or.inr (by simpa using h1)
      cases hx : extractCommand input with
      | str s2 =>
        rw [hx] at h
        simp only [] at h
        by_cases he : (s2 == "") = true
        · rw [if_pos he] at h
          exact absurd h (by simp)
        · rw [if_neg he] at h
          cases hf : filterCommand s2 config with
          | none =>
            rw [hf] at h
            have hs : s2 = s := by simpa using h
            subst hs
            refine ⟨htool, rfl, by simpa using he, hf⟩
          | some c =>
            rw [hf] at h
            exact absurd h (by simp)
      | num n => rw [hx] at h; exact absurd h (by simp)
      | bool b => rw [hx] at h; exact absurd h (by simp)
      | null => rw [hx] at h; exact absurd h (by simp)
      | undef => rw [hx] at h; exact absurd h (by simp)
    · rw [if_neg ht] at h
      exact absurd h (by simp)
  · intro b1 b2
    rfl

/-- Witness for `blockedCommand_scope`: a blocked `bash` invocation with a
denylisted command satisfies every part of the characterization. -/
theorem blockedCommand_scope_witness :
    ("bash" = "bash" ∨ "bash" = "execute_command") ∧
    extractCommand (some ⟨JSValue.str "sudo ls", JSValue.undef⟩) = JSValue.str "sudo ls" ∧
    "sudo ls" ≠ "" ∧
    filterCommand "sudo ls" ⟨"/ws", false, false, true, ["node"], 300000⟩ = none :=
  (blockedCommand_scope "bash" (some ⟨JSValue.str "sudo ls", JSValue.undef⟩)
    ⟨"/ws", false, false, true, ["node"], 300000⟩).1 "sudo ls" (by decide)

/-! ## Agent messages and result translation -/

/-- A message from the agent stream, as a closed tagged variant: plain text,
tool invocation request, tool invocation result, final result, and an
escape hatch for unknown kinds carrying the raw type tag. -/
inductive AgentMessage
  | text (t : String)
  | toolUse (tool : String) (input : Option ToolInput) (tid : String)
  | toolResult (toolUseId : String) (content : String)
  | result (r : String)
  | other (ty : String)
deriving DecidableEq

/-- `message.type` of each variant. -/
def AgentMessage.typeTag : AgentMessage → String
  | .text _ => "text"
  | .toolUse _ _ _ => "tool_use"
  | .toolResult _ _ => "tool_result"
  | .result _ => "result"
  | .other ty => ty

/-- A value stored in the produced n8n `json` object. -/
inductive OutVal
  | str (s : String)
  | toolInputVal (i : Option ToolInput)
  | rawMessage (m : AgentMessage)
deriving DecidableEq

/-- `convertAgentMessageToN8nData(message, returnIntermediateSteps)`: the
`json` object as an ordered field list.  The `type` field is always set;
tool fields are added only in intermediate-steps mode; unknown kinds pass
through as a raw `message` field. -/
def convertAgentMessageToN8nData (message : AgentMessage)
    (returnIntermediateSteps : Bool) : List (String × OutVal) :=
  let base := [("type", OutVal.str message.typeTag)]
  match message with
  | .text t => base ++ [("text", OutVal.str t)]
  | .toolUse tool input tid =>
    if returnIntermediateSteps then
      base ++ [("tool", OutVal.str tool), ("toolInput", OutVal.toolInputVal input),
               ("toolCallId", OutVal.str tid)]
    else base
  | .toolResult toolUseId content =>
    if returnIntermediateSteps then
      base ++ [("toolCallId", OutVal.str toolUseId), ("toolResult", OutVal.str content)]
    else base
  | .result r => base ++ [("output", OutVal.str r)]
  | .other _ => base ++ [("message", OutVal.rawMessage message)]

/-- C8: translating a final-result message yields a record whose `output`
field equals the message's result field, for both values of the
intermediate-steps flag. -/
theorem convert_result_output_roundtrip (r : String) (returnIntermediateSteps : Bool) :
    (convertAgentMessageToN8nData (AgentMessage.result r) returnIntermediateSteps).lookup "output"
      = some (OutVal.str r) := by
  cases returnIntermediateSteps <;> rfl

/-! ## Sandboxed environment (`createSandboxedEnvironment`) -/

/-- Workspace context for isolated agent execution (`WorkspaceContext`);
the creation timestamp is modelled as a number. -/
structure WorkspaceContext where
  path : String
  workflowId : String
  executionId : String
  created : Nat
deriving DecidableEq

/-- `createSandboxedEnvironment(workspace)`: the sanitized environment for
command execution.  The TypeScript function has ambient access to
`process.env` but reads nothing from it; the inherited environment is made
an explicit (unused) parameter so that independence can be stated. -/
def createSandboxedEnvironment (workspace : WorkspaceContext)
    (_processEnv : List (String × String)) : List (String × String) :=
  [("HOME", workspace.path),
   ("PATH", "/usr/local/bin:/usr/bin:/bin"),
   ("WORKSPACE", workspace.path),
   ("SHELL", "/bin/sh"),
   ("USER", "n8n-agent")]

/-- C9: the sandboxed environment is exactly the five fixed variables (home
directory and workspace marker equal to the workspace path, a fixed
restrictive PATH, a non-privileged shell, a synthetic user), and it is
identical for any two inherited process environments, so no inherited
variable flows into it. -/
theorem createSandboxedEnvironment_minimal_and_closed
    (workspace : WorkspaceContext) (env1 env2 : List (String × String)) :
    createSandboxedEnvironment workspace env1 = createSandboxedEnvironment workspace env2 ∧
    createSandboxedEnvironment workspace env1 =
      [("HOME", workspace.path),
       ("PATH", "/usr/local/bin:/usr/bin:/bin"),
       ("WORKSPACE", workspace.path),
       ("SHELL", "/bin/sh"),
       ("USER", "n8n-agent")] :=
  ⟨rfl, rfl⟩

/-! ## Workspace creation (`createSandboxedWorkspace`) -/

/-- Errors raised while validating a custom workspace path. -/
inductive WorkspaceError
  | invalidConfiguration
  | forbiddenPath
deriving DecidableEq

/-- The fixed sensitive-directory denylist of `createSandboxedWorkspace`. -/
def deniedPaths : List String := ["/etc", "/root", "/sys", "/proc", "/dev", "/boot"]

/-- `createSandboxedWorkspace(context, customPath)`, as the pure path
computation: the `mkdir` side effect is omitted and the random suffix and
temporary directory are explicit inputs.  `if (customPath)` in JS is a
truthiness test, so an absent or empty custom path selects the
temporary-directory branch; a truthy custom path must be absolute and
outside the denylist, and the workspace is `resolve(customPath,
claude-agent-<randomId>)`. -/
def createSandboxedWorkspace (cwd : List String) (customPath : Option String)
    (tmpDir workflowId randomId : String) : Except WorkspaceError String :=
  let tmpPath := joinPath [tmpDir, "n8n-claude-agent", workflowId, randomId]
  match customPath with
  | some p =>
    if p == "" then Except.ok tmpPath
    else if !(strStarts p "/") then Except.error WorkspaceError.invalidConfiguration
    else if deniedPaths.any (fun d => strStarts p d) then
      Except.error WorkspaceError.forbiddenPath
    else Except.ok (resolveTwo cwd p ("claude-agent-" ++ randomId))
  | none => Except.ok tmpPath

/-- C10: an empty-string custom path is falsy in JS, so `createSandboxedWorkspace`
does not reject it with `InvalidConfiguration` even though it is not
absolute: it behaves exactly as if no custom path were supplied and the
workspace is derived under the system temporary directory. -/
theorem createWorkspace_empty_custom_path (cwd : List String)
    (tmpDir workflowId randomId : String) :
    createSandboxedWorkspace cwd (some "") tmpDir workflowId randomId
        = Except.ok (joinPath [tmpDir, "n8n-claude-agent", workflowId, randomId]) ∧
    createSandboxedWorkspace cwd (some "") tmpDir workflowId randomId
        = createSandboxedWorkspace cwd none tmpDir workflowId randomId :=
  ⟨rfl, rfl⟩

/-! ## Execution supervisor (`claudeCodeAgentExecute`)

The per-item streaming loop, the timeout race and the batch loop are
embedded as explicit state passing.  Externally observable actions
(workspace lifecycle, audit logging, the blocked-command warning) are
collected in an effect trace; the shared credential slot
(`process.env.ANTHROPIC_API_KEY`) is a threaded boolean.  The timeout
race is modelled by a cut point: `timerAfter = some k` means the deadline
timer fires while exactly `k` stream events have been consumed and the
agent task is awaiting the next one.  When the timer wins, the race
settles with a timeout error while the abandoned agent task is still
suspended inside its `for await` loop, before its `finally` clause. -/

/-- One event of the external agent stream: a yielded message, or the
iterator throwing an upstream error. -/
inductive StreamEvent
  | msg (m : AgentMessage)
  | streamError (e : String)
deriving DecidableEq

/-- Externally observable effects of a run, in emission order. -/
inductive Effect
  | createWorkspace
  | destroyWorkspace
  | auditInit
  | auditStart
  | auditToolUse (tool : String) (input : Option ToolInput)
  | auditComplete
  | warnBlocked (command : String)
deriving DecidableEq

/-- True exactly for the workspace lifecycle effects. -/
def Effect.isWsOp : Effect → Bool
  | .createWorkspace => true
  | .destroyWorkspace => true
  | _ => false

/-- Error outcomes of a run, mirroring the thrown errors of the source. -/
inductive RunError
  | missingInput
  | sdkUnavailable
  | credentialMissing
  | commandBlocked (command : String)
  | timeout
  | upstream (e : String)
deriving DecidableEq

/-- The `error.message` string of each thrown error. -/
def errMessage : RunError → String
  | .missingInput => "No prompt provided for Claude Agent"
  | .sdkUnavailable => "Failed to load Claude Agent SDK. Make sure @anthropic-ai/claude-agent-sdk is installed."
  | .credentialMissing => "Anthropic API key not found. Please configure Anthropic credentials."
  | .commandBlocked command => "Command blocked by security filters: " ++ command
  | .timeout => "Agent execution timeout"
  | .upstream e => e

/-- Mutable state of the streaming loop: the captured final result and the
accumulated translated messages. -/
structure ItemState where
  finalResult : String
  agentMessages : List (List (String × OutVal))
deriving DecidableEq

/-- Per-message state update: the message is translated and pushed in
streaming mode, and a final-result message overwrites `finalResult`. -/
def stepState (enableStreaming returnIntermediateSteps : Bool)
    (st : ItemState) (m : AgentMessage) : ItemState :=
  { finalResult :=
      match m with
      | .result r => r
      | _ => st.finalResult,
    agentMessages :=
      if enableStreaming then
        st.agentMessages ++ [convertAgentMessageToN8nData m returnIntermediateSteps]
      else st.agentMessages }

/-- Effects of processing one message, and the blocked command if the
message aborts the run: a final-result message emits the run-completed
audit; a tool invocation first emits its audit event unconditionally,
then, when command filtering rejects it, the blocked-command warning. -/
def msgEffects (config : SandboxConfig) (m : AgentMessage) : List Effect × Option String :=
  match m with
  | .result _ => ([Effect.auditComplete], none)
  | .toolUse tool input _ =>
    match blockedCommand tool input config with
    | some c => ([Effect.auditToolUse tool input, Effect.warnBlocked c], some c)
    | none => ([Effect.auditToolUse tool input], none)
  | _ => ([], none)

/-- Result of consuming the stream: emitted effects, number of consumed
events, and the final outcome. -/
structure ProcOut where
  effects : List Effect
  consumed : Nat
  result : Except RunError ItemState

/-- The body of `executeAgent`: consume the stream one event at a time;
a blocked command or an upstream error aborts, otherwise consumption
continues to the end of the stream. -/
def processEvents (config : SandboxConfig) (enableStreaming returnIntermediateSteps : Bool)
    (st : ItemState) : List StreamEvent → ProcOut
  | [] => ⟨[], 0, Except.ok st⟩
  | StreamEvent.streamError e :: _ => ⟨[], 1, Except.error (RunError.upstream e)⟩
  | StreamEvent.msg m :: rest =>
    match (msgEffects config m).2 with
    | some c => ⟨(msgEffects config m).1, 1, Except.error (RunError.commandBlocked c)⟩
    | none =>
      ⟨(msgEffects config m).1 ++
         (processEvents config enableStreaming returnIntermediateSteps
           (stepState enableStreaming returnIntermediateSteps st m) rest).effects,
       (processEvents config enableStreaming returnIntermediateSteps
           (stepState enableStreaming returnIntermediateSteps st m) rest).consumed + 1,
       (processEvents config enableStreaming returnIntermediateSteps
           (stepState enableStreaming returnIntermediateSteps st m) rest).result⟩

/-- Initial streaming state (`finalResult = ''`, no messages). -/
def initState : ItemState := ⟨"", []⟩

/-- Outcome of `Promise.race([executeAgent(), timeoutPromise])`:
effects emitted up to the race settling, the settled result, and whether
the shared credential slot is still installed at that moment.
`executeAgent` sets the credential synchronously before the loop and
clears it in a `finally`; when the timer wins the race the agent task is
abandoned while suspended, so its `finally` has not run and the
credential is still installed. -/
structure RaceOut where
  effects : List Effect
  result : Except RunError ItemState
  credentialInstalled : Bool

/-- The timeout race over the streaming phase. -/
def itemRace (config : SandboxConfig) (enableStreaming returnIntermediateSteps : Bool)
    (events : List StreamEvent) (timerAfter : Option Nat) : RaceOut :=
  let out := processEvents config enableStreaming returnIntermediateSteps initState events
  match timerAfter with
  | none => ⟨out.effects, out.result, false⟩
  | some k =>
    if out.consumed ≤ k then ⟨out.effects, out.result, false⟩
    else
      ⟨(processEvents config enableStreaming returnIntermediateSteps initState
          (events.take k)).effects,
       Except.error RunError.timeout, true⟩

/-- One scenario for a single input item: the prompt resolved for the item
(the empty string is the falsy missing prompt), whether the dynamic
SDK import succeeds, whether an API key credential is configured, the agent
stream, and the timeout cut point. -/
structure ItemScenario where
  prompt : String
  sdkLoads : Bool
  hasApiKey : Bool
  events : List StreamEvent
  timerAfter : Option Nat
deriving DecidableEq

/-- One entry pushed to `returnData`. -/
inductive OutputEntry
  | message (json : List (String × OutVal))
  | summary (output : String) (workspace : String)
  | errorEntry (error : String) (itemIndex : Nat)
deriving DecidableEq

/-- Per-item outcome: emitted effects, the item result, and the state the
shared credential slot was left in (`none` when the item never touched
the slot). -/
structure ItemOut where
  effects : List Effect
  result : Except RunError (List OutputEntry)
  credEffect : Option Bool

/-- One iteration of the item loop: prompt check, run-started audit,
SDK import, credential lookup, then the raced streaming phase; on success the
output is either the streamed message sequence (streaming + intermediate
steps) or the collapsed summary record. -/
def runItem (config : SandboxConfig) (wsPath : String)
    (enableStreaming returnIntermediateSteps : Bool) (sc : ItemScenario) : ItemOut :=
  if sc.prompt == "" then ⟨[], Except.error RunError.missingInput, none⟩
  else if !sc.sdkLoads then ⟨[Effect.auditStart], Except.error RunError.sdkUnavailable, none⟩
  else if !sc.hasApiKey then ⟨[Effect.auditStart], Except.error RunError.credentialMissing, none⟩
  else
    let race := itemRace config enableStreaming returnIntermediateSteps sc.events sc.timerAfter
    ⟨Effect.auditStart :: race.effects,
     match race.result with
     | Except.ok st =>
       Except.ok
         (if enableStreaming && returnIntermediateSteps then
            st.agentMessages.map OutputEntry.message
          else [OutputEntry.summary st.finalResult wsPath])
     | Except.error e => Except.error e,
     some race.credentialInstalled⟩

/-- Batch outcome: full effect trace, overall result, and the state of the
shared credential slot when the batch returns. -/
structure BatchOut where
  effects : List Effect
  result : Except RunError (List OutputEntry)
  credentialInstalled : Bool

/-- The item loop with its per-item try/catch: an item error is recorded
and processing continues when `continueOnFail` is set, otherwise it
aborts the batch. -/
def runBatchAux (config : SandboxConfig) (wsPath : String)
    (enableStreaming returnIntermediateSteps continueOnFail : Bool) :
    Nat → Bool → List ItemScenario → BatchOut
  | _, cred, [] => ⟨[], Except.ok [], cred⟩
  | idx, cred, sc :: rest =>
    let it := runItem config wsPath enableStreaming returnIntermediateSteps sc
    let cred2 := it.credEffect.getD cred
    match it.result with
    | Except.ok entries =>
      let b := runBatchAux config wsPath enableStreaming returnIntermediateSteps continueOnFail
        (idx + 1) cred2 rest
      ⟨it.effects ++ b.effects, b.result.map (fun l => entries ++ l), b.credentialInstalled⟩
    | Except.error e =>
      if continueOnFail then
        let b := runBatchAux config wsPath enableStreaming returnIntermediateSteps continueOnFail
          (idx + 1) cred2 rest
        ⟨it.effects ++ b.effects,
         b.result.map (fun l => OutputEntry.errorEntry (errMessage e) idx :: l),
         b.credentialInstalled⟩
      else ⟨it.effects, Except.error e, cred2⟩

/-- `claudeCodeAgentExecute`: run-initialized audit, workspace creation,
the item loop, and the `finally` that destroys the workspace on every
exit path of the batch. -/
def claudeCodeAgentExecute (config : SandboxConfig) (wsPath : String)
    (enableStreaming returnIntermediateSteps continueOnFail : Bool)
    (items : List ItemScenario) : BatchOut :=
  let b := runBatchAux config wsPath enableStreaming returnIntermediateSteps continueOnFail
    0 false items
  ⟨Effect.auditInit :: Effect.createWorkspace :: (b.effects ++ [Effect.destroyWorkspace]),
   b.result, b.credentialInstalled⟩

/-! ## C3: the shared credential slot across exit paths -/

/-- C3 (code evaluated at the failing input): with a single input item whose
stream has one pending message and a deadline that fires before the
message is processed, the race settles with a timeout error while the
abandoned agent task has not reached its `finally`, so the process-wide
`ANTHROPIC_API_KEY` slot is still installed when the run returns — the
losing branch of the race leaves the credential installed. -/
theorem credential_left_installed_on_timeout :
    (claudeCodeAgentExecute ⟨"/tmp/ws", true, true, true, ["node"], 300000⟩ "/tmp/ws"
        true false false
        [⟨"summarize the file", true, true,
          [StreamEvent.msg (AgentMessage.text "working")], some 0⟩]).credentialInstalled
      = true ∧
    (claudeCodeAgentExecute ⟨"/tmp/ws", true, true, true, ["node"], 300000⟩ "/tmp/ws"
        true false false
        [⟨"summarize the file", true, true,
          [StreamEvent.msg (AgentMessage.text "working")], some 0⟩]).result
      = Except.error RunError.timeout :=
  ⟨rfl, rfl⟩

/-! ## C4: workspace lifecycle happens exactly once per batch -/

/-- The effects of a single message contain no workspace lifecycle operation. -/
theorem msgEffects_no_wsop (config : SandboxConfig) (m : AgentMessage) :
    ((msgEffects config m).1).filter Effect.isWsOp = [] := by
  cases m with
  | text t => rfl
  | toolResult a b => rfl
  | result r => rfl
  | other ty => rfl
  | toolUse tool input tid =>
    cases hb : blockedCommand tool input config with
    | none => simp [msgEffects, hb, Effect.isWsOp]
    | some c => simp [msgEffects, hb, Effect.isWsOp]

/-- The streaming loop emits no workspace lifecycle operation. -/
theorem processEvents_no_wsop (config : SandboxConfig) (s r : Bool) (st : ItemState)
    (es : List StreamEvent) :
    ((processEvents config s r st es).effects).filter Effect.isWsOp = [] := by
  induction es generalizing st with
  | nil => rfl
  | cons ev rest ih =>
    cases ev with
    | streamError e => rfl
    | msg m =>
      cases hb : (msgEffects config m).2 with
      | some c => simp [processEvents, hb, msgEffects_no_wsop]
      | none => simp [processEvents, hb, List.filter_append, msgEffects_no_wsop, ih]

/-- The timeout race emits no workspace lifecycle operation. -/
theorem itemRace_no_wsop (config : SandboxConfig) (s r : Bool)
    (events : List StreamEvent) (timerAfter : Option Nat) :
    ((itemRace config s r events timerAfter).effects).filter Effect.isWsOp = [] := by
  cases timerAfter with
  | none => simp [itemRace, processEvents_no_wsop]
  | some k =>
    by_cases hk : (processEvents config s r initState events).consumed ≤ k
    · simp [itemRace, hk, processEvents_no_wsop]
    · simp [itemRace, hk, processEvents_no_wsop]

/-- A single item emits no workspace lifecycle operation. -/
theorem runItem_no_wsop (config : SandboxConfig) (wsPath : String) (s r : Bool)
    (sc : ItemScenario) :
    ((runItem config wsPath s r sc).effects).filter Effect.isWsOp = [] := by
  unfold runItem
  by_cases h1 : (sc.prompt == "") = true
  · simp [h1]
  · by_cases h2 : sc.sdkLoads
    · by_cases h3 : sc.hasApiKey
      · simp [h1, h2, h3, Effect.isWsOp, itemRace_no_wsop]
      · simp [h1, h2, h3, Effect.isWsOp]
    · simp [h1, h2, Effect.isWsOp]

/-- The item loop emits no workspace lifecycle operation. -/
theorem runBatchAux_no_wsop (config : SandboxConfig) (wsPath : String)
    (s r cont : Bool) (idx : Nat) (cred : Bool) (items : List ItemScenario) :
    ((runBatchAux config wsPath s r cont idx cred items).effects).filter Effect.isWsOp
      = [] := by
  induction items generalizing idx cred with
  | nil => rfl
  | cons sc rest ih =>
    cases hres : (runItem config wsPath s r sc).result with
    | ok entries =>
      simp [runBatchAux, hres, List.filter_append, runItem_no_wsop, ih]
    | error e =>
      by_cases hc : cont = true
      · rw [hc] at ih ⊢
        simp [runBatchAux, hres, List.filter_append, runItem_no_wsop, ih]
      · have hc2 : cont = false := by simpa using hc
        rw [hc2] at ih ⊢
        simp [runBatchAux, hres, runItem_no_wsop]

/-- C4: for every batch execution — over all item scenarios, including
missing prompts, blocked commands, timeouts and upstream errors, with and
without per-item failure tolerance — the effect trace contains exactly one
workspace creation and one workspace destruction: the lifecycle
operations of the trace are precisely create-then-destroy, creation is
the second effect (right after the run-initialized audit, before any
item), and destruction is the final effect of the run. -/
theorem workspace_lifecycle_once (config : SandboxConfig) (wsPath : String)
    (enableStreaming returnIntermediateSteps continueOnFail : Bool)
    (items : List ItemScenario) :
    ((claudeCodeAgentExecute config wsPath enableStreaming returnIntermediateSteps
        continueOnFail items).effects).filter Effect.isWsOp
      = [Effect.createWorkspace, Effect.destroyWorkspace] ∧
    ((claudeCodeAgentExecute config wsPath enableStreaming returnIntermediateSteps
        continueOnFail items).effects).take 2
      = [Effect.auditInit, Effect.createWorkspace] ∧
    ((claudeCodeAgentExecute config wsPath enableStreaming returnIntermediateSteps
        continueOnFail items).effects).getLast?
      = some Effect.destroyWorkspace := by
  refine ⟨?_, rfl, ?_⟩
  · simp [claudeCodeAgentExecute, List.filter_append, Effect.isWsOp, runBatchAux_no_wsop]
  · simp only [claudeCodeAgentExecute]
    rw [← List.cons_append, ← List.cons_append, List.getLast?_concat]

/-! ## C5: audit trail of a blocked command -/

/-- Modelled from the claim's words: an audit event recording the given
command — a tool-invocation audit whose recorded input carries the
command string under the `command` or `cmd` key. -/
def recordsCommand (cmd : String) : Effect → Bool
  | .auditToolUse _ (some i) => i.command == JSValue.str cmd || i.cmd == JSValue.str cmd
  | _ => false

/-- A tool-invocation audit event for a shell-execution invocation whose
extracted command string is rejected by command filtering. -/
def blockingAudit (config : SandboxConfig) : Effect → Bool
  | .auditToolUse tool input => (blockedCommand tool input config).isSome
  | _ => false

/-- C5 (counterexample): a stream whose first invocation is a non-shell tool
carrying `sudo rm -rf /` in its input and whose second is a `bash`
invocation of the same command aborts with a blocked-command error, yet
two tool-invocation audit events recording that command were emitted
before the abort — not exactly one as claimed. -/
theorem blocked_command_audited_twice :
    (processEvents ⟨"/ws", true, true, true, ["node"], 300000⟩ true false initState
        [StreamEvent.msg (AgentMessage.toolUse "read_file"
            (some ⟨JSValue.str "sudo rm -rf /", JSValue.undef⟩) "t1"),
         StreamEvent.msg (AgentMessage.toolUse "bash"
            (some ⟨JSValue.str "sudo rm -rf /", JSValue.undef⟩) "t2")]).result
      = Except.error (RunError.commandBlocked "sudo rm -rf /") ∧
    ((processEvents ⟨"/ws", true, true, true, ["node"], 300000⟩ true false initState
        [StreamEvent.msg (AgentMessage.toolUse "read_file"
            (some ⟨JSValue.str "sudo rm -rf /", JSValue.undef⟩) "t1"),
         StreamEvent.msg (AgentMessage.toolUse "bash"
            (some ⟨JSValue.str "sudo rm -rf /", JSValue.undef⟩) "t2")]).effects).countP
        (recordsCommand "sudo rm -rf /") = 2 :=
  ⟨rfl, rfl⟩

/-- A message whose processing aborts is a shell tool invocation whose
filtering rejects the extracted command, and its effects are exactly its
audit event followed by the blocked-command warning. -/
theorem msgEffects_blocked (config : SandboxConfig) (m : AgentMessage) (c : String)
    (h : (msgEffects config m).2 = some c) :
    ∃ tool input tid, m = AgentMessage.toolUse tool input tid ∧
      blockedCommand tool input config = some c ∧
      (msgEffects config m).1 = [Effect.auditToolUse tool input, Effect.warnBlocked c] := by
  cases m with
  | text t => simp [msgEffects] at h
  | toolResult a b => simp [msgEffects] at h
  | result r => simp [msgEffects] at h
  | other ty => simp [msgEffects] at h
  | toolUse tool input tid =>
    cases hb : blockedCommand tool input config with
    | none => simp [msgEffects, hb] at h
    | some c2 =>
      have hc : c2 = c := by simpa [msgEffects, hb] using h
      subst hc
      exact ⟨tool, input, tid, rfl, hb, by simp [msgEffects, hb]⟩

/-- A message whose processing does not abort contributes no blocking audit
event. -/
theorem msgEffects_clean (config : SandboxConfig) (m : AgentMessage)
    (h : (msgEffects config m).2 = none) :
    ((msgEffects config m).1).countP (blockingAudit config) = 0 := by
  cases m with
  | text t => rfl
  | toolResult a b => rfl
  | result r => rfl
  | other ty => rfl
  | toolUse tool input tid =>
    cases hb : blockedCommand tool input config with
    | some c => simp [msgEffects, hb] at h
    | none => simp [msgEffects, hb, List.countP_cons, blockingAudit]

/-- C5 (amended): when streaming aborts with a blocked-command error, the
emitted effect trace ends with the audit event of the offending shell
invocation immediately followed by the blocked-command warning (nothing
after it — the stream is not resumed), and exactly one audit event in the
trace records a blocking shell invocation; earlier invocations of other
tools may also have recorded the same command string in their input. -/
theorem blocked_run_audit_shape (config : SandboxConfig) (s r : Bool) (st : ItemState)
    (es : List StreamEvent) (cmd : String)
    (h : (processEvents config s r st es).result
      = Except.error (RunError.commandBlocked cmd)) :
    ((processEvents config s r st es).effects).countP (blockingAudit config) = 1 ∧
    ∃ pre tool input,
      (processEvents config s r st es).effects
        = pre ++ [Effect.auditToolUse tool input, Effect.warnBlocked cmd] ∧
      blockedCommand tool input config = some cmd ∧
      pre.countP (blockingAudit config) = 0 := by
  induction es generalizing st with
  | nil => simp [processEvents] at h
  | cons ev rest ih =>
    cases ev with
    | streamError e => simp [processEvents] at h
    | msg m =>
      cases hb : (msgEffects config m).2 with
      | some c =>
        have hc : c = cmd := by simpa [processEvents, hb] using h
        subst hc
        obtain ⟨tool, input, tid, hm, hbc, heff⟩ := msgEffects_blocked config m c hb
        constructor
        · simp [processEvents, hb, heff, List.countP_cons, blockingAudit, hbc]
        · exact ⟨[], tool, input, by simp [processEvents, hb, heff], hbc, rfl⟩
      | none =>
        have h2 : (processEvents config s r (stepState s r st m) rest).result
            = Except.error (RunError.commandBlocked cmd) := by
          simpa [processEvents, hb] using h
        obtain ⟨hcount, pre, tool, input, heq, hbc, hpre⟩ := ih (stepState s r st m) h2
        refine ⟨?_, (msgEffects config m).1 ++ pre, tool, input, ?_, hbc, ?_⟩
        · simp [processEvents, hb, List.countP_append, msgEffects_clean config m hb, hcount]
        · simp [processEvents, hb, heq, List.append_assoc]
        · simp [List.countP_append, msgEffects_clean config m hb, hpre]

/-- Witness for `blocked_run_audit_shape`: a single blocked `bash`
invocation yields exactly one blocking audit event and the decomposed
trace shape. -/
theorem blocked_run_audit_shape_witness :
    ((processEvents ⟨"/ws", true, true, true, ["node"], 300000⟩ true false initState
        [StreamEvent.msg (AgentMessage.toolUse "bash"
            (some ⟨JSValue.str "sudo ls", JSValue.undef⟩) "t1")]).effects).countP
        (blockingAudit ⟨"/ws", true, true, true, ["node"], 300000⟩) = 1 ∧
    ∃ pre tool input,
      (processEvents ⟨"/ws", true, true, true, ["node"], 300000⟩ true false initState
        [StreamEvent.msg (AgentMessage.toolUse "bash"
            (some ⟨JSValue.str "sudo ls", JSValue.undef⟩) "t1")]).effects
        = pre ++ [Effect.auditToolUse tool input, Effect.warnBlocked "sudo ls"] ∧
      blockedCommand tool input ⟨"/ws", true, true, true, ["node"], 300000⟩
        = some "sudo ls" ∧
      pre.countP (blockingAudit ⟨"/ws", true, true, true, ["node"], 300000⟩) = 0 :=
  blocked_run_audit_shape ⟨"/ws", true, true, true, ["node"], 300000⟩ true false initState
    [StreamEvent.msg (AgentMessage.toolUse "bash"
        (some ⟨JSValue.str "sudo ls", JSValue.undef⟩) "t1")] "sudo ls" rfl
